import Mathlib

/-!
Shallow embedding of the Optix gradient-based optimization library.

The repository holds two generations of the same system: the canonical
modular package (file `optix/optix.py`) and a legacy monolithic entry point
(file `optix.py`).  Both are embedded below where a claim needs them.
Real-valued quantities are modelled over `ℚ` (the claims under study are
about control flow, ordering and exact formula shape, not about rounding).
Python `None` is modelled as `Option.none`; a Python exception is modelled
as an `Except.error` value.  Numerical subroutines that are not expressible
as computable exact arithmetic (SVD smallest singular value, dense linear
solves) are taken as explicit function parameters shared by the embedded
code and the specification statement, so every theorem is about the
surrounding control flow of the source with those oracles held fixed.
-/

namespace Optix

set_option maxRecDepth 4000

attribute [local semireducible] Rat.add Rat.mul Rat.sub Rat.inv

/-- Constraint type tag, `"eq"` or `"ineq"` (per the `minimize` docstring and
`get_constraints` in the legacy file `optix.py`). -/
inductive CType where
  | eq
  | ineq
deriving DecidableEq, Repr

/-- A caller-supplied constraint specification: the dict
`{type, fun, grad?}` of `minimize`'s `constraints` option.  The callable is
identified opaquely by `fid`; `hasGrad` records whether a gradient callable
was supplied. -/
structure CSpec where
  ctype : CType
  fid : Nat
  hasGrad : Bool
deriving DecidableEq, Repr

/-- Modelled from the spec: the `Constraint` adapter object
(`optix/classes.py` is not part of the source tree).  Per spec §4.5 it is a
passive wrapper carrying the declared type tag and the user callable;
constructing it performs no evaluation. -/
structure Constraint where
  ctype : CType
  fid : Nat
  hasGrad : Bool
deriving DecidableEq, Repr

/-- The adapter built for one specification (`c.Constraint(type, fun, ..., grad)`). -/
def mkConstraint (c : CSpec) : Constraint :=
  ⟨c.ctype, c.fid, c.hasGrad⟩

/-- Embedding of `get_constraints` (legacy `optix.py` lines 704-726; the
modular package imports the same builder from its helpers module, which is
not in the tree).  The first loop appends one adapter per `"ineq"` entry in
input order, counting them in `n_ineq_cstr`; the second loop appends one
adapter per `"eq"` entry in input order; `n_cstr` is the length of the
caller's list.  When the `constraints` option is `None`, the function
returns `(None, 0, 0)`. -/
def get_constraints (constraints : Option (List CSpec)) :
    Option (List Constraint) × Nat × Nat :=
  match constraints with
  | some cs =>
      let n_cstr := cs.length
      let ineqAdapters := (cs.filter (fun c => c.ctype == CType.ineq)).map mkConstraint
      let eqAdapters := (cs.filter (fun c => c.ctype == CType.eq)).map mkConstraint
      (some (ineqAdapters ++ eqAdapters), n_cstr, ineqAdapters.length)
  | none => (none, 0, 0)

/-- Observable side effects of the `minimize` pipeline that the claims talk
about: console output, creation of the three log files, and objective or
constraint evaluations. -/
inductive Event where
  | printSetup
  | createOptFile
  | createGradFile
  | createEvalFile
  | evalObjective
  | evalConstraint
deriving DecidableEq, Repr

/-- Errors raised by the `minimize` pipeline before or at dispatch. -/
inductive MinErr where
  | overconstrained
  | methodImproper
deriving DecidableEq, Repr

deriving instance DecidableEq for Except

/-- Result of running the `minimize` pipeline: the events emitted in order,
the outcome, and the value of `settings.method` at dispatch time. -/
structure MinOut where
  events : List Event
  result : Except MinErr Unit
  methodUsed : String
deriving DecidableEq, Repr

/-- Embedding of the pre-dispatch pipeline of the modular `minimize`
(`optix/optix.py` lines 187-253).  In source order: `Settings(**kwargs)`,
pool/queue construction and `Objective(...)` (none of which evaluate the
objective or touch files — adapter construction is storage only, modelled
from spec §4.1/§4.4 since `optix/classes.py` is absent); the method
override `if constraints == None: settings.method = "bfgs"`;
`get_constraints`; the overconstrained check
`if n_cstr - n_ineq_cstr > n_vars: raise`; then `print_setup`,
`format_output_files` (creates the optimize and gradient logs), dispatch
through `_find_minimum` (which raises on an unrecognized method), and the
evaluations-file writer (started before the driver when
`max_processes > 1`, after it otherwise; either way strictly after the
overconstrained check, which is all the claims use).  The driver itself is
an arbitrary parameter producing its own events. -/
def minimize_run (n_vars : Nat) (constraints : Option (List CSpec))
    (method : String)
    (driver : String → Option (List Constraint) → List Event × Except MinErr Unit) :
    MinOut :=
  let methodSet := if constraints = none then "bfgs" else method
  let r := get_constraints constraints
  let g := r.1
  let n_cstr := r.2.1
  let n_ineq_cstr := r.2.2
  if n_cstr - n_ineq_cstr > n_vars then
    ⟨[], Except.error MinErr.overconstrained, methodSet⟩
  else
    let setupEvents := [Event.printSetup, Event.createOptFile, Event.createGradFile]
    if methodSet = "bfgs" ∨ methodSet = "sqp" ∨ methodSet = "grg" then
      let d := driver methodSet g
      ⟨setupEvents ++ d.1 ++ [Event.createEvalFile], d.2, methodSet⟩
    else
      ⟨setupEvents, Except.error MinErr.methodImproper, methodSet⟩

/-- Embedding of the pre-dispatch pipeline of the legacy `minimize`
(`optix.py` lines 16-81).  Identical shape except that the legacy entry
point has no automatic method override (its `Settings` requires the method
to be chosen explicitly) and raises `ValueError` rather than `IOError` for
the overconstrained case — both modelled by the same `MinErr` constructor,
as the claims only name the error condition. -/
def minimize_run_legacy (n_vars : Nat) (constraints : Option (List CSpec))
    (method : String)
    (driver : String → Option (List Constraint) → List Event × Except MinErr Unit) :
    MinOut :=
  let r := get_constraints constraints
  let g := r.1
  let n_cstr := r.2.1
  let n_ineq_cstr := r.2.2
  if n_cstr - n_ineq_cstr > n_vars then
    ⟨[], Except.error MinErr.overconstrained, method⟩
  else
    let setupEvents := [Event.printSetup, Event.createOptFile, Event.createGradFile]
    if method = "bfgs" ∨ method = "sqp" ∨ method = "grg" then
      let d := driver method g
      ⟨setupEvents ++ d.1 ++ [Event.createEvalFile], d.2, method⟩
    else
      ⟨setupEvents, Except.error MinErr.methodImproper, method⟩

/-- The settings record (spec §3; defaults per the `minimize` docstring in
`optix/optix.py`).  Only the fields the embedded routines read are kept.
Field order: termination_tol, grad_tol, n_search, alpha_init, alpha_reset,
alpha_mult, search_type, rsq_tol, wolfe_armijo, wolfe_curv, hess_init,
cstr_tol, dx, max_iterations, n_cstr, n_ineq_cstr. -/
structure Settings where
  termination_tol : ℚ
  grad_tol : ℚ
  n_search : Nat
  alpha_init : ℚ
  alpha_reset : Bool
  alpha_mult : ℚ
  search_type : String
  rsq_tol : ℚ
  wolfe_armijo : ℚ
  wolfe_curv : ℚ
  hess_init : ℚ
  cstr_tol : ℚ
  dx : ℚ
  max_iterations : Option Nat
  n_cstr : Nat
  n_ineq_cstr : Nat
deriving DecidableEq, Repr

/-- Default settings: termination_tol 1e-12, grad_tol 1e-12, n_search 8,
alpha_init 1/n_search, alpha_reset false, alpha_mult n_search-1,
search_type "bracket", rsq_tol 0.8, wolfe_armijo 1e-4, wolfe_curv 0.9,
hess_init 1, cstr_tol 1e-4, dx 0.001, max_iterations infinite (`none`),
constraint counts 0 until filled in by `minimize`. -/
def defaultSettings : Settings :=
  ⟨1/10^12, 1/10^12, 8, 1/8, false, 7, "bracket", 4/5, 1/10000, 9/10, 1,
    1/10000, 1/1000, none, 0, 0⟩

/-- The loop bound `iter < settings.max_iterations`, where `none` models the
default `math.inf` (the BFGS iteration counter starts at Python `-1`, hence
`Int`). -/
def iterLT (iter : Int) (cap : Option Nat) : Prop :=
  match cap with
  | none => True
  | some m => iter < (m : Int)

instance (iter : Int) (cap : Option Nat) : Decidable (iterLT iter cap) := by
  unfold iterLT
  cases cap <;> infer_instance

namespace Canonical

/-- Embedding of `_find_opt_alpha` (`optix/optix.py` lines 478-502).  The
least-squares `Quadratic` fit lives in the absent `optix/classes.py`, so its
three observables — the vertex abscissa (`none` for a degenerate fit), the
convexity flag, and R² — enter as parameters `qVertex`, `qConvex`, `qRsq`.
The quadratic branch returns the vertex exactly when
`not (alpha_opt is None or alpha_opt < 0 or not q.convex() or q.rsq < rsq_tol)`;
otherwise the vertex of the parabola through the three samples bracketing
`min_ind` is used, with the literal `a3*2` first term of the source, clamped
to `a2` when it falls outside `[a1, a3]`. -/
def find_opt_alpha (st : Settings) (qVertex : Option ℚ) (qConvex : Bool)
    (qRsq : ℚ) (a f_search : List ℚ) (min_ind : Nat) : ℚ :=
  if st.search_type = "quadratic" ∧
      ¬(qVertex = none ∨ qVertex.getD 0 < 0 ∨ qConvex = false ∨ qRsq < st.rsq_tol) then
    qVertex.getD 0
  else
    let a1 := a.getD (min_ind - 1) 0
    let a2 := a.getD min_ind 0
    let a3 := a.getD (min_ind + 1) 0
    let f1 := f_search.getD (min_ind - 1) 0
    let f2 := f_search.getD min_ind 0
    let f3 := f_search.getD (min_ind + 1) 0
    let alpha_opt := (f1*(a2^2 - a3*2) + f2*(a3^2 - a1^2) + f3*(a1^2 - a2^2)) /
        (2*(f1*(a2 - a3) + f2*(a3 - a1) + f3*(a1 - a3)))
    if alpha_opt > a3 ∨ alpha_opt < a1 then a2 else alpha_opt

end Canonical

namespace Legacy

/-- Embedding of `find_opt_alpha` of the legacy monolith (`optix.py` lines
262-285), transcribed independently of the canonical generation; the
`c.quadratic` fit observables are parameters exactly as in
`Canonical.find_opt_alpha`. -/
def find_opt_alpha (st : Settings) (qVertex : Option ℚ) (qConvex : Bool)
    (qRsq : ℚ) (a f_search : List ℚ) (min_ind : Nat) : ℚ :=
  if st.search_type = "quadratic" ∧
      ¬(qVertex = none ∨ qVertex.getD 0 < 0 ∨ qConvex = false ∨ qRsq < st.rsq_tol) then
    qVertex.getD 0
  else
    let a1 := a.getD (min_ind - 1) 0
    let a2 := a.getD min_ind 0
    let a3 := a.getD (min_ind + 1) 0
    let f1 := f_search.getD (min_ind - 1) 0
    let f2 := f_search.getD min_ind 0
    let f3 := f_search.getD (min_ind + 1) 0
    let alpha_opt := (f1*(a2^2 - a3*2) + f2*(a3^2 - a1^2) + f3*(a1^2 - a2^2)) /
        (2*(f1*(a2 - a3) + f2*(a3 - a1) + f3*(a1 - a3)))
    if alpha_opt > a3 ∨ alpha_opt < a1 then a2 else alpha_opt

end Legacy

/-- The bracket-fallback vertex quotient exactly as the claim states it,
first term `f1·(a2² − 2·a3)`. -/
def claimBracketVertex (a1 a2 a3 f1 f2 f3 : ℚ) : ℚ :=
  (f1*(a2^2 - 2*a3) + f2*(a3^2 - a1^2) + f3*(a1^2 - a2^2)) /
  (2*(f1*(a2 - a3) + f2*(a3 - a1) + f3*(a1 - a3)))

/-- The claim's bracket-fallback step: the quotient above, replaced by `a2`
whenever it falls outside `[a1, a3]`. -/
def claimBracketStep (a1 a2 a3 f1 f2 f3 : ℚ) : ℚ :=
  if claimBracketVertex a1 a2 a3 f1 f2 f3 < a1 ∨ a3 < claimBracketVertex a1 a2 a3 f1 f2 f3 then
    a2
  else
    claimBracketVertex a1 a2 a3 f1 f2 f3

/-- `sum(cstr_b)` of a Python boolean list: the number of `True` entries. -/
def countTrue (l : List Bool) : Nat :=
  l.countP id

/-- The binding-constraint flags computed by `_grg`
(`optix/optix.py` lines 787-789): an inequality constraint is binding when
its value is at most `cstr_tol`; equality constraints are always binding. -/
def bindingSet (g0 : List ℚ) (n_ineq n_cstr : Nat) (cstr_tol : ℚ) : List Bool :=
  (g0.take n_ineq).map (fun v => decide (v ≤ cstr_tol)) ++
    List.replicate (n_cstr - n_ineq) true

/-- The excess-drop scan of `_grg` (`optix/optix.py` lines 798-802):
`for i in range(n_cstr): if cstr_b[i] and unbound < n_binding - n_vars:
cstr_b[i] = False; unbound += 1`, with `excess = n_binding - n_vars` fixed
before the scan. -/
def dropExcessAux (excess : Nat) : List Bool → Nat → List Bool
  | [], _ => []
  | b :: bs, unbound =>
      if b && decide (unbound < excess) then
        false :: dropExcessAux excess bs (unbound + 1)
      else
        b :: dropExcessAux excess bs unbound

/-- The binding-set adjustment of `_grg` (`optix/optix.py` lines 794-802):
when more constraints are binding than there are design variables, un-mark
the excess in scan order. -/
def grgAdjustBinding (n_vars : Nat) (cstr_b : List Bool) : List Bool :=
  let n_binding := countTrue cstr_b
  if n_binding > n_vars then dropExcessAux (n_binding - n_vars) cstr_b 0
  else cstr_b

/-- Flipping the first `k` `true` entries of a Boolean list to `false` — the
specification-level description of the excess drop ("exactly the excess
binding constraints are un-marked, in scan order"). -/
def dropFirstTrues : List Bool → Nat → List Bool
  | [], _ => []
  | b :: bs, k =>
      if b && decide (0 < k) then false :: dropFirstTrues bs (k - 1)
      else b :: dropFirstTrues bs k

/-- The per-constraint binding options of `_get_delta_x`
(`optix/optix.py` lines 645-646): `[True, False]` for each inequality
constraint, `[True]` for each equality constraint. -/
def cstr_opts (n_ineq n_cstr : Nat) : List (List Bool) :=
  List.replicate n_ineq [true, false] ++ List.replicate (n_cstr - n_ineq) [true]

/-- `itertools.product(*opts)`: tuples in lexicographic order with the
leftmost factor varying slowest. -/
def listProd : List (List Bool) → List (List Bool)
  | [] => [[]]
  | opts :: rest => (opts.map (fun b => (listProd rest).map (fun t => b :: t))).flatten

/-- `poss_combos` of `_get_delta_x` (`optix/optix.py` line 647). -/
def poss_combos (n_ineq n_cstr : Nat) : List (List Bool) :=
  listProd (cstr_opts n_ineq n_cstr)

/-- The inputs of one `_get_delta_x` call, with its two numerical oracles
taken as explicit function parameters shared by the embedded code and the
specification statement: `svdBelow c` is the outcome of the test
`(abs(s) < 1e-14).any()` on the singular values of the binding-gradient
Jacobian `del_g0[:, c].T`, and `kktSol c` is the solution of the KKT linear
system of `_get_x_lambda`, split as (`delta_x`, raw multipliers of the
binding constraints, in index order).  `gEval` evaluates the constraint
vector at a point (`_eval_constr`). -/
structure SQPInput where
  n_vars : Nat
  n_cstr : Nat
  n_ineq_cstr : Nat
  svdBelow : List Bool → Bool
  kktSol : List Bool → List ℚ × List ℚ
  gEval : List ℚ → List ℚ
  x0 : List ℚ

/-- The multiplier scatter of `_get_x_lambda` (`optix/optix.py` lines
758-759): `l = np.zeros(n_cstr); l[cstr_b] = l_sol` — binding positions
receive the solved multipliers in order, non-binding positions stay zero. -/
def scatterLambda : List Bool → List ℚ → List ℚ
  | [], _ => []
  | true :: bs, v :: vs => v :: scatterLambda bs vs
  | true :: bs, [] => 0 :: scatterLambda bs []
  | false :: bs, vs => 0 :: scatterLambda bs vs

/-- Embedding of `_get_x_lambda` (`optix/optix.py` lines 739-760) around the
abstract KKT solve: returns `delta_x` and the full multiplier vector. -/
def get_x_lambda (inp : SQPInput) (cstr_b : List Bool) : List ℚ × List ℚ :=
  let sol := inp.kktSol cstr_b
  (sol.1, scatterLambda cstr_b sol.2)

/-- The constraint values `g1 = _eval_constr(g, x0 + delta_x)` at the
candidate point of a combination. -/
def comboG1 (inp : SQPInput) (cstr_b : List Bool) : List ℚ :=
  inp.gEval (List.zipWith (· + ·) inp.x0 (get_x_lambda inp cstr_b).1)

/-- The two `continue` guards at the head of each `_get_delta_x` loop body
(`optix/optix.py` lines 650-658): skip when more than `n_vars` constraints
would bind, or when more than one binds and the smallest singular value of
the binding-gradient Jacobian is below 1e-14. -/
def comboSkip (inp : SQPInput) (c : List Bool) : Bool :=
  decide (inp.n_vars < countTrue c) || (decide (1 < countTrue c) && inp.svdBelow c)

/-- `(g1[cstr_b == False] < 0).any()` (`optix/optix.py` line 666): some
non-binding constraint is violated at the candidate point. -/
def nonbindingViolated : List Bool → List ℚ → Bool
  | false :: bs, v :: vs => decide (v < 0) || nonbindingViolated bs vs
  | true :: bs, _ :: vs => nonbindingViolated bs vs
  | _, _ => false

/-- `(l[:n_ineq_cstr].flatten() < 0).any()` (`optix/optix.py` line 670):
some inequality multiplier is negative. -/
def negIneqMult (n_ineq : Nat) (l : List ℚ) : Bool :=
  (l.take n_ineq).any (fun v => decide (v < 0))

/-- The first `_get_delta_x` loop (`optix/optix.py` lines 648-673): iterate
`poss_combos`, `continue` on the skip guards, `continue` when a non-binding
constraint is violated at the candidate point, `continue` when an
inequality multiplier is negative, `break` (accept) otherwise. -/
def getDeltaXLoop1 (inp : SQPInput) : List (List Bool) → Option (List Bool)
  | [] => none
  | c :: rest =>
      if comboSkip inp c then getDeltaXLoop1 inp rest
      else
        if nonbindingViolated c (comboG1 inp c) then getDeltaXLoop1 inp rest
        else if negIneqMult inp.n_ineq_cstr (get_x_lambda inp c).2 then
          getDeltaXLoop1 inp rest
        else some c

/-- The relaxed second `_get_delta_x` loop (`optix/optix.py` lines 680-701),
entered through Python's `for ... else` when the first loop never broke:
identical except that non-binding constraints are allowed to be violated. -/
def getDeltaXLoop2 (inp : SQPInput) : List (List Bool) → Option (List Bool)
  | [] => none
  | c :: rest =>
      if comboSkip inp c then getDeltaXLoop2 inp rest
      else
        if negIneqMult inp.n_ineq_cstr (get_x_lambda inp c).2 then
          getDeltaXLoop2 inp rest
        else some c

/-- The binding combination `_get_delta_x` settles on (the value of
`cstr_b` after its enumeration, when some combination is accepted). -/
def get_delta_x_combo (inp : SQPInput) : Option (List Bool) :=
  match getDeltaXLoop1 inp (poss_combos inp.n_ineq_cstr inp.n_cstr) with
  | some c => some c
  | none => getDeltaXLoop2 inp (poss_combos inp.n_ineq_cstr inp.n_cstr)

/-- Decidable shape of "this optional value, if present, is nonnegative". -/
def nonnegAt (o : Option ℚ) : Prop :=
  match o with
  | some v => 0 ≤ v
  | none => True

instance (o : Option ℚ) : Decidable (nonnegAt o) := by
  unfold nonnegAt
  cases o <;> infer_instance

/-- The claim's validity requirement for a combination: not skipped for
having more binding constraints than design variables, nor for linearly
dependent binding-constraint gradients (smallest singular value of their
Jacobian below 1e-14) — the dependence test applying to combinations with
more than one binding constraint, a single gradient being trivially
independent. -/
def specValidCombo (inp : SQPInput) (c : List Bool) : Prop :=
  countTrue c ≤ inp.n_vars ∧ (1 < countTrue c → inp.svdBelow c = false)

/-- Claim condition (a): no non-binding constraint is violated at the
candidate point. -/
def specCondA (inp : SQPInput) (c : List Bool) : Prop :=
  ∀ i < c.length, c.get? i = some false → nonnegAt ((comboG1 inp c).get? i)

/-- Claim condition (b): no inequality Lagrange multiplier is negative. -/
def specCondB (inp : SQPInput) (c : List Bool) : Prop :=
  ∀ i < inp.n_ineq_cstr, nonnegAt ((get_x_lambda inp c).2.get? i)

/-- Full acceptance in the first pass of the claim. -/
def specAcceptStrict (inp : SQPInput) (c : List Bool) : Prop :=
  specValidCombo inp c ∧ specCondA inp c ∧ specCondB inp c

/-- Acceptance in the claim's relaxed fallback pass: only validity and (b). -/
def specAcceptRelaxed (inp : SQPInput) (c : List Bool) : Prop :=
  specValidCombo inp c ∧ specCondB inp c

instance (inp : SQPInput) (c : List Bool) : Decidable (specValidCombo inp c) := by
  unfold specValidCombo
  infer_instance

instance (inp : SQPInput) (c : List Bool) : Decidable (specCondA inp c) := by
  unfold specCondA
  infer_instance

instance (inp : SQPInput) (c : List Bool) : Decidable (specCondB inp c) := by
  unfold specCondB
  infer_instance

instance (inp : SQPInput) (c : List Bool) : Decidable (specAcceptStrict inp c) := by
  unfold specAcceptStrict
  infer_instance

instance (inp : SQPInput) (c : List Bool) : Decidable (specAcceptRelaxed inp c) := by
  unfold specAcceptRelaxed
  infer_instance

/-- The binding set described by the claim: the first combination, in
enumeration order, that is valid and satisfies (a) and (b); if none
satisfies (a), the first valid combination satisfying only (b). -/
def specChoose (inp : SQPInput) : Option (List Bool) :=
  match (poss_combos inp.n_ineq_cstr inp.n_cstr).find?
      (fun c => decide (specAcceptStrict inp c)) with
  | some c => some c
  | none =>
      (poss_combos inp.n_ineq_cstr inp.n_cstr).find?
        (fun c => decide (specAcceptRelaxed inp c))

/-- Python `min(l)` over a nonempty list (0 for `[]`, which never occurs in
the embedded call sites). -/
def pyListMin : List ℚ → ℚ
  | [] => 0
  | v :: vs => vs.foldl min v

/-- Python `max(l)` over a nonempty list. -/
def pyListMax : List ℚ → ℚ
  | [] => 0
  | v :: vs => vs.foldl max v

/-- `l.index(v)`: index of the first occurrence of `v`. -/
def pyIndex : List ℚ → ℚ → Nat
  | [], _ => 0
  | x :: xs, v => if x = v then 0 else pyIndex xs v + 1

/-- `f_search.index(min(f_search))` / `np.argmin(f_search)`: index of the
first occurrence of the minimum. -/
def pyMinIndex (l : List ℚ) : Nat :=
  pyIndex l (pyListMin l)

/-- The two return arities of `_line_search` (`optix/optix.py` lines
387-475): the plateau branch at line 425 returns the 3-tuple
`(x0, f0, alpha)`, every other branch a 4-tuple including the
first-Wolfe-condition flag. -/
inductive LSRet where
  | ret3 (x f alpha : ℚ)
  | ret4 (x f alpha : ℚ) (wolfe : Bool)
deriving DecidableEq, Repr

/-- Python exceptions escaping the BFGS driver and its line search.
`nanInLineSearch x` is the `ValueError("Objective function returned a NaN")`
of `optix/optix.py` line 419, raised after the diagnostic print at lines
417-418 echoes the single offending design point `x`.  `nanIndexTypeError`
is the `TypeError` raised by that print itself when two or more samples are
NaN: line 418 indexes the Python list `x_search` with the numpy index array
`np.where(np.isnan(f_search))[0]`, and a list index conversion via
`__index__` succeeds only for a one-element array — with several NaN
samples the print raises and the `ValueError` is never reached.
`unpackValueErr` is the `ValueError` from unpacking the 3-tuple plateau
return into four names at lines 313/347, and `nameErrFX2` the `NameError`
from referencing the never-assigned `f2`/`x2` in the final return at line
363.  `fuelExhaust` is only the marker of the embedding's fuel running out
and is unreachable in the finite runs below. -/
inductive PyErr where
  | nanInLineSearch (x : ℚ)
  | nanIndexTypeError
  | unpackValueErr
  | nameErrFX2
  | fuelExhaust
deriving DecidableEq, Repr

/-- The forward sample points of one line-search attempt
(`optix/optix.py` line 402): `x0 + s*alpha*i` for `i = 1 .. n_search`. -/
def lsSamples (st : Settings) (x0 s alpha : ℚ) : List ℚ :=
  (List.range st.n_search).map (fun i => x0 + s*alpha*((i : ℚ) + 1))

/-- The design points at the NaN sample positions: the elements of
`x_search` selected by the index set `np.where(np.isnan(f_search))[0]`
(`optix/optix.py` line 418). -/
def nanOffending (x_search : List ℚ) (f_search : List (Option ℚ)) : List ℚ :=
  (List.zip x_search f_search).filterMap
    (fun p => if p.2.isNone then some p.1 else none)

/-- Embedding of `_line_search` (`optix/optix.py` lines 387-475) for a
problem in one design variable (all claims about it are dimension
independent).  The objective `fobj` returns `none` for a not-a-number
value; `qfit` gives the `Quadratic` fit observables for the samples
(`optix/classes.py` is absent; the default `search_type = "bracket"` never
consults it).  The second output component is the list of points at which
the objective was evaluated, in order, for the claims about when
evaluation stops.  The NaN branch (lines 415-419) first prints the
offending points and then raises: with exactly one NaN sample the print
succeeds and `ValueError("Objective function returned a NaN")` is raised
reporting that point; with two or more, the list-indexing in the print
raises `TypeError` first (the under-the-guard-impossible empty case is
mapped to the same branch).  The post-fit evaluation `f1 = f.f(x1)` is not
NaN-checked by the source; the embedding reads a `none` there as 0 (no
claim exercises that path).  Arguments after the fuel: `x0, f0, s,
del_f0, alpha, prev_reduced, prev_increased`. -/
def line_search (fobj : ℚ → Option ℚ)
    (qfit : List ℚ → List ℚ → Option ℚ × Bool × ℚ) (st : Settings) :
    Nat → ℚ → Option ℚ → ℚ → ℚ → ℚ → Bool → Bool → Except PyErr LSRet × List ℚ
  | 0, _, _, _, _, _, _, _ => (Except.error PyErr.fuelExhaust, [])
  | fuel+1, x0, f0, s, del_f0, alpha, prev_reduced, prev_increased =>
      let xs := lsSamples st x0 s alpha
      let x_search := x0 :: xs
      let f_search := f0 :: xs.map fobj
      if f_search.any (fun v => v.isNone) then
        match nanOffending x_search f_search with
        | [x] => (Except.error (PyErr.nanInLineSearch x), xs)
        | _ => (Except.error PyErr.nanIndexTypeError, xs)
      else
        let vs := f_search.map (fun v => v.getD 0)
        if pyListMin vs = pyListMax vs then
          (Except.ok (LSRet.ret3 x0 (f0.getD 0) alpha), xs)
        else if vs.getD 1 0 > vs.getD 0 0 ∧ alpha < st.termination_tol then
          (Except.ok (LSRet.ret4 x0 (f0.getD 0) alpha true), xs)
        else
          let min_ind := pyMinIndex vs
          if min_ind = 0 then
            let multiplier := if prev_increased then st.alpha_mult - 1 else st.alpha_mult
            let pr := if prev_increased then prev_reduced else true
            let pi := if prev_increased then false else prev_increased
            let r := line_search fobj qfit st fuel x0 f0 s del_f0 (alpha / multiplier) pr pi
            (r.1, xs ++ r.2)
          else if min_ind = st.n_search then
            let multiplier := if prev_reduced then st.alpha_mult - 1 else st.alpha_mult
            let pr := if prev_reduced then false else prev_reduced
            let pi := if prev_reduced then prev_increased else true
            let r := line_search fobj qfit st fuel x0 f0 s del_f0 (alpha * multiplier) pr pi
            (r.1, xs ++ r.2)
          else
            let a := (List.range (st.n_search + 1)).map (fun i => alpha * (i : ℚ))
            let q := qfit a vs
            let alpha_opt := Canonical.find_opt_alpha st q.1 q.2.1 q.2.2 a vs min_ind
            let x1 := x0 + s*alpha_opt
            let f1 := (fobj x1).getD 0
            let armijo := f0.getD 0 + st.wolfe_armijo*alpha_opt*(s*del_f0)
            let wolfe_satis := decide (¬(f1 > armijo))
            (Except.ok (LSRet.ret4 x1 f1 alpha_opt wolfe_satis), xs ++ [x1])

/-- The caller-side unpacking `x1, f1, alpha, wolfe_satis = _line_search(...)`
(`optix/optix.py` lines 313 and 347): a 3-tuple return raises
`ValueError: not enough values to unpack`. -/
def unpack4 (r : LSRet) : Except PyErr (ℚ × ℚ × ℚ × Bool) :=
  match r with
  | LSRet.ret3 _ _ _ => Except.error PyErr.unpackValueErr
  | LSRet.ret4 x f a w => Except.ok (x, f, a, w)

/-- Modelled from the spec: `Objective.del_f` of the absent
`optix/classes.py`, per spec §4.4 and the `minimize` docstring — central
finite difference `(f(x+dx) - f(x-dx)) / (2 dx)` with the default
`cent_diff = True`, in one variable. -/
def del_f (fobj : ℚ → Option ℚ) (st : Settings) (x : ℚ) : ℚ :=
  ((fobj (x + st.dx)).getD 0 - (fobj (x - st.dx)).getD 0) / (2*st.dx)

/-- Embedding of `_get_N` (`optix/optix.py` lines 366-384) in one variable:
`A = I - sigma*outer(dx, y)`, `B = sigma*outer(dx, dx)`, result
`A·N0·A + B`. -/
def get_N (N0 delta_x0 del_f0 del_f1 : ℚ) : ℚ :=
  let y_k := del_f1 - del_f0
  let sigma_k := 1/(delta_x0*y_k)
  let A := 1 - sigma_k*(delta_x0*y_k)
  let B := sigma_k*(delta_x0*delta_x0)
  A*(N0*A) + B

/-- The result record (spec §4.3/`OptimizerResult`), without the shared
call counters that live in the absent `optix/classes.py`. -/
structure OptimizerResult where
  f : ℚ
  x : ℚ
  success : Bool
  message : String
  iter : Int
deriving DecidableEq, Repr

/-- Outcome of a `_bfgs` run: a returned result record, an escaped Python
exception, or the embedding's fuel marker. -/
inductive BfgsOut where
  | ok (r : OptimizerResult)
  | err (e : PyErr)
  | fuelOut
deriving DecidableEq, Repr

/-- Control flow of the inner `_bfgs` loop: either the whole driver is done
(return/raise), or control falls back to the outer loop with the current
`iter`, `x0`, `mag_dx` and the record of whether `f2`/`x2` were ever
assigned. -/
inductive InnerRes where
  | done (o : BfgsOut)
  | toOuter (iter : Int) (x0 : ℚ) (mag_dx : ℚ) (fx2 : Option (ℚ × ℚ))
deriving DecidableEq, Repr

/-- Embedding of the inner `_bfgs` loop (`optix/optix.py` lines 318-361) in
one variable.  State after the fuel: `iter, x0, del_f0, delta_x0, x1, f1,
mag_dx, fx2`; `fx2` records the values of `f2`/`x2` once the first inner
line-search unpacking succeeds (Python binds them even when the
first-Wolfe check then breaks out).  `N0` is never reassigned by the
source's inner loop, so `_get_N` always starts from
`hess_init`·I as the source does. -/
def bfgs_inner (fobj : ℚ → Option ℚ)
    (qfit : List ℚ → List ℚ → Option ℚ × Bool × ℚ) (st : Settings)
    (lsFuel : Nat) :
    Nat → Int → ℚ → ℚ → ℚ → ℚ → ℚ → ℚ → Option (ℚ × ℚ) → InnerRes
  | 0, _, _, _, _, _, _, _, _ => InnerRes.done BfgsOut.fuelOut
  | fuel+1, iter, x0, del_f0, delta_x0, x1, f1, mag_dx, fx2 =>
      if iterLT iter st.max_iterations ∧ mag_dx > st.termination_tol then
        let iter := iter + 1
        let del_f1 := del_f fobj st x1
        if |del_f1| < st.grad_tol then
          InnerRes.done (BfgsOut.ok ⟨f1, x1, true, "Gradient tolerance reached.", iter⟩)
        else if delta_x0 * del_f1 < st.wolfe_curv * (delta_x0 * del_f0) then
          InnerRes.toOuter iter x1 mag_dx fx2
        else
          let N1 := get_N st.hess_init delta_x0 del_f0 del_f1
          let s0 := -(N1 * del_f1)
          let s := s0 / |s0|
          let alpha_guess := if st.alpha_reset then st.alpha_init else mag_dx
          let r := line_search fobj qfit st lsFuel x1 (some f1) s del_f1 alpha_guess false false
          match r.1 with
          | Except.error e => InnerRes.done (BfgsOut.err e)
          | Except.ok lsr =>
              match unpack4 lsr with
              | Except.error e => InnerRes.done (BfgsOut.err e)
              | Except.ok (x2, f2, alpha, wolfe) =>
                  let fx2 := some (f2, x2)
                  if !wolfe then InnerRes.toOuter iter x2 mag_dx fx2
                  else
                    bfgs_inner fobj qfit st lsFuel fuel iter x1 del_f1 (x2 - x1) x2 f2 alpha fx2
      else
        InnerRes.toOuter iter x0 mag_dx fx2

/-- Embedding of `_bfgs` (`optix/optix.py` lines 275-363) in one variable.
State after the fuel: `iter, x0, mag_dx, agSet, fx2`, where `agSet` records
that `alpha_guess` is no longer Python `None` (its stored value is never
read again: the source overwrites it with `alpha_init` or the current
`mag_dx` before each use).  The final `return OptimizerResult(f2, x2, ...)`
at line 363 raises `NameError` when the inner loop never bound `f2`/`x2`. -/
def bfgs_outer (fobj : ℚ → Option ℚ)
    (qfit : List ℚ → List ℚ → Option ℚ × Bool × ℚ) (st : Settings)
    (lsFuel innerFuel : Nat) :
    Nat → Int → ℚ → ℚ → Bool → Option (ℚ × ℚ) → BfgsOut
  | 0, _, _, _, _, _ => BfgsOut.fuelOut
  | fuel+1, iter, x0, mag_dx, agSet, fx2 =>
      if iterLT iter st.max_iterations ∧ mag_dx > st.termination_tol then
        let iter := iter + 1
        let f0 := fobj x0
        let del_f0 := del_f fobj st x0
        let s0 := -(st.hess_init * del_f0)
        let alpha_guess := if agSet = false ∨ st.alpha_reset then st.alpha_init else mag_dx
        let s := s0 / |s0|
        let r := line_search fobj qfit st lsFuel x0 f0 s del_f0 alpha_guess false false
        match r.1 with
        | Except.error e => BfgsOut.err e
        | Except.ok lsr =>
            match unpack4 lsr with
            | Except.error e => BfgsOut.err e
            | Except.ok (x1, f1, alpha, _) =>
                match bfgs_inner fobj qfit st lsFuel innerFuel iter x0 del_f0 (x1 - x0) x1 f1 alpha fx2 with
                | InnerRes.done o => o
                | InnerRes.toOuter iter2 x02 mag2 fx22 =>
                    bfgs_outer fobj qfit st lsFuel innerFuel fuel iter2 x02 mag2 true fx22
      else
        match fx2 with
        | none => BfgsOut.err PyErr.nameErrFX2
        | some p => BfgsOut.ok ⟨p.1, p.2, true, "Step tolerance reached.", iter⟩

/-- A full `_bfgs` run from a starting point: `iter = -1`, `mag_dx = 1`,
`alpha_guess = None`, `f2`/`x2` unbound. -/
def bfgs (fobj : ℚ → Option ℚ)
    (qfit : List ℚ → List ℚ → Option ℚ × Bool × ℚ) (st : Settings)
    (lsFuel innerFuel outerFuel : Nat) (x_start : ℚ) : BfgsOut :=
  bfgs_outer fobj qfit st lsFuel innerFuel outerFuel (-1) x_start 1 false none

/-- `np.array(rows).T` for a rectangular list of rows. -/
def transposeQ : List (List ℚ) → List (List ℚ)
  | [] => []
  | [r] => r.map (fun v => [v])
  | r :: rs => List.zipWith (fun v c => v :: c) r (transposeQ rs)

/-- Column `j` of a transposed sample array, `m[:, j]`. -/
def colQ (m : List (List ℚ)) (j : Nat) : List ℚ :=
  m.map (fun row => row.getD j 0)

/-- The feasibility test of `_grg_line_search` at sample column `j`
(`optix/optix.py` lines 1044-1047): some inequality constraint below
`-cstr_tol`, or some equality constraint away from zero by more than
`cstr_tol`; `gT` is the transposed constraint sample array
`g_search[:, j]`. -/
def grgInfeasibleAt (st : Settings) (gT : List (List ℚ)) (j : Nat) : Bool :=
  ((gT.take st.n_ineq_cstr).map (fun row => row.getD j 0)).any
    (fun v => decide (v < -st.cstr_tol)) ||
  ((gT.drop st.n_ineq_cstr).map (fun row => row.getD j 0)).any
    (fun v => decide (|v| > st.cstr_tol))

/-- The step-back loop `while min_ind > 0 and infeasible(min_ind):
min_ind -= 1` (`optix/optix.py` lines 1044-1045). -/
def grgWalkBack (st : Settings) (gT : List (List ℚ)) : Nat → Nat
  | 0 => 0
  | j+1 => if grgInfeasibleAt st gT (j+1) then grgWalkBack st gT j else j + 1

/-- Result `(x1, f1, g1, code)` of `_grg_line_search`; `code = 1` means the
driver proceeds, `code = -1` makes `_grg` return the
failed-to-converge record (`optix/optix.py` lines 841-847). -/
structure GrgLSOut where
  x1 : List ℚ
  f1 : ℚ
  g1 : List ℚ
  code : Int
deriving DecidableEq, Repr

/-- Embedding of the step-size loop of `_grg_line_search`
(`optix/optix.py` lines 955-1085).  `evalPoint alpha i` is the outcome of
`_eval_search_point` for sample `i` of an attempt at step size `alpha`
(`none` models the `except Warning: return None` discard path); the
surviving `(x, f, g)` triples are appended behind the starting point in
sample order.  `carried` holds the previous attempt's converted arrays
`(np.array(x_search).T, f_search, np.array(g_search).T)`, which Python
leaves in scope for the loop's `else:` clause; there the source decides
failure by `if len(x_search) == 1` — the length of the *transposed* array,
i.e. the number of design variables, not the number of surviving
samples.  Fuel exhaustion returns the unreachable marker `code = 99`. -/
def grg_line_search (evalPoint : ℚ → Nat → Option (List ℚ × ℚ × List ℚ))
    (st : Settings) (x_start : List ℚ) (f0 : ℚ) (g0 : List ℚ) :
    Nat → ℚ → Option (List (List ℚ) × List ℚ × List (List ℚ)) → GrgLSOut
  | 0, _, _ => ⟨[], 0, [], 99⟩
  | fuel+1, alpha, carried =>
      if alpha > st.termination_tol then
        let survivors := (List.range st.n_search).filterMap
          (fun i => evalPoint alpha (i + 1))
        let x_searchL := x_start :: survivors.map (fun p => p.1)
        let f_searchL := f0 :: survivors.map (fun p => p.2.1)
        let g_searchL := g0 :: survivors.map (fun p => p.2.2)
        let count := 1 + survivors.length
        let xT := transposeQ x_searchL
        let gT := transposeQ g_searchL
        let carried2 := some (xT, f_searchL, gT)
        if count = 1 then
          grg_line_search evalPoint st x_start f0 g0 fuel (alpha / st.alpha_mult) carried2
        else
          let min_ind0 := pyMinIndex f_searchL
          let min_ind1 := grgWalkBack st gT min_ind0
          let min_ind := if min_ind1 = 0 && grgInfeasibleAt st gT 0 then 1 else min_ind1
          if min_ind = st.n_search then
            grg_line_search evalPoint st x_start f0 g0 fuel (alpha * st.alpha_mult) carried2
          else if min_ind = 0 then
            grg_line_search evalPoint st x_start f0 g0 fuel (alpha / st.alpha_mult) carried2
          else
            ⟨colQ xT min_ind, f_searchL.getD min_ind 0, colQ gT min_ind, 1⟩
      else
        match carried with
        | none => ⟨[], 0, [], 99⟩
        | some arrs =>
            ⟨colQ arrs.1 0, arrs.2.1.getD 0 0, colQ arrs.2.2 0,
              if arrs.1.length = 1 then -1 else 1⟩

/-- Entry to `_grg_line_search` (`optix/optix.py` lines 968-970): when
`alpha_reset` is set, the incoming step size (the previous iteration's
`mag_dx`) is replaced with `alpha_init` before the step-size loop; the
local arrays start unbound (`none`). -/
def grg_line_search_run (evalPoint : ℚ → Nat → Option (List ℚ × ℚ × List ℚ))
    (st : Settings) (x_start : List ℚ) (f0 : ℚ) (g0 : List ℚ)
    (fuel : Nat) (alpha : ℚ) : GrgLSOut :=
  grg_line_search evalPoint st x_start f0 g0 fuel
    (if st.alpha_reset then st.alpha_init else alpha) none

/-- The failure glue of `_grg` (`optix/optix.py` lines 841-847): on
`err == -1` the driver returns `success = False` with this message. -/
def grgFailureMessage : String :=
  "Failed to converge to one or more constraint boundaries."

/-! ### Theorems -/

theorem length_filter_le' (p : CSpec → Bool) (cs : List CSpec) :
    (cs.filter p).length ≤ cs.length :=
  List.length_filter_le p cs

/-- Every specification is either an equality or an inequality, so the
number of equality entries is the total minus the inequality count. -/
theorem eq_count_sub (cs : List CSpec) :
    cs.length - (cs.filter (fun c => c.ctype == CType.ineq)).length
      = (cs.filter (fun c => c.ctype == CType.eq)).length := by
  induction cs with
  | nil => rfl
  | cons c rest ih =>
      have hle := length_filter_le' (fun c => c.ctype == CType.ineq) rest
      cases h : c.ctype <;>
        simp [List.filter_cons, h, Nat.succ_sub_succ] <;> omega

/-- C1 (counterexample): with the `constraints` option absent (`None`), the
builder does not return an empty adapter list — it returns `None` (with
both counts zero), the value its callers test with `constraints == None`. -/
theorem C1_counterexample :
    (get_constraints none).1 ≠ some ([] : List Constraint) ∧
    get_constraints none = (none, 0, 0) := by
  exact ⟨by decide, rfl⟩

/-- C1 (amended): for every supplied list of specifications the builder
returns the inequality adapters in input order followed by the equality
adapters in input order, with `n_cstr` the total count and `n_ineq_cstr`
the number of `"ineq"` entries — so every adapter before index
`n_ineq_cstr` is an inequality and every adapter from it on is an
equality; an explicitly supplied empty list yields the empty adapter list
with both counts zero, while an absent (`None`) option yields `None` with
both counts zero. -/
theorem C1_constraint_builder (cs : List CSpec) :
    get_constraints (some cs) =
      (some (((cs.filter (fun c => c.ctype == CType.ineq)) ++
              (cs.filter (fun c => c.ctype == CType.eq))).map mkConstraint),
        cs.length,
        (cs.filter (fun c => c.ctype == CType.ineq)).length) ∧
    (∀ a ∈ ((get_constraints (some cs)).1.getD []).take (get_constraints (some cs)).2.2,
        a.ctype = CType.ineq) ∧
    (∀ a ∈ ((get_constraints (some cs)).1.getD []).drop (get_constraints (some cs)).2.2,
        a.ctype = CType.eq) ∧
    get_constraints (some ([] : List CSpec)) = (some [], 0, 0) ∧
    get_constraints none = (none, 0, 0) := by
  refine ⟨by simp [get_constraints, List.map_append], ?_, ?_, rfl, rfl⟩
  · intro a ha
    simp only [get_constraints, Option.getD_some, List.length_map] at ha
    rw [List.take_left' (by simp)] at ha
    obtain ⟨c, hc, rfl⟩ := List.mem_map.mp ha
    have h2 := (List.mem_filter.mp hc).2
    have h3 : c.ctype = CType.ineq := by
      cases hct : c.ctype
      · rw [hct] at h2; exact absurd h2 (by decide)
      · rfl
    simpa [mkConstraint] using h3
  · intro a ha
    simp only [get_constraints, Option.getD_some, List.length_map] at ha
    rw [List.drop_left' (by simp)] at ha
    obtain ⟨c, hc, rfl⟩ := List.mem_map.mp ha
    have h2 := (List.mem_filter.mp hc).2
    have h3 : c.ctype = CType.eq := by
      cases hct : c.ctype
      · rfl
      · rw [hct] at h2; exact absurd h2 (by decide)
    simpa [mkConstraint] using h3

/-- C1 witness: a concrete mixed list, evaluated. -/
theorem C1_constraint_builder_witness :
    get_constraints (some [⟨CType.eq, 0, false⟩, ⟨CType.ineq, 1, true⟩,
        ⟨CType.eq, 2, false⟩, ⟨CType.ineq, 3, false⟩]) =
      (some [⟨CType.ineq, 1, true⟩, ⟨CType.ineq, 3, false⟩,
        ⟨CType.eq, 0, false⟩, ⟨CType.eq, 2, false⟩], 4, 2) :=
  (C1_constraint_builder _).1.trans (by decide)

/-- C2: whenever the number of equality constraints exceeds the number of
design variables, both generations of `minimize` raise the
overconstrained-problem error with an empty event trace — no objective or
constraint evaluation, no file creation, no dispatch — for every driver. -/
theorem C2_overconstrained (n_vars : Nat) (cs : List CSpec) (method : String)
    (driver : String → Option (List Constraint) → List Event × Except MinErr Unit)
    (h : n_vars < (cs.filter (fun c => c.ctype == CType.eq)).length) :
    (minimize_run n_vars (some cs) method driver).result
        = Except.error MinErr.overconstrained ∧
    (minimize_run n_vars (some cs) method driver).events = [] ∧
    (minimize_run_legacy n_vars (some cs) method driver).result
        = Except.error MinErr.overconstrained ∧
    (minimize_run_legacy n_vars (some cs) method driver).events = [] := by
  have hcond : cs.length -
      ((cs.filter (fun c => c.ctype == CType.ineq)).map mkConstraint).length > n_vars := by
    rw [List.length_map, eq_count_sub]
    exact h
  constructor
  · simp only [minimize_run, get_constraints]
    rw [if_pos hcond]
  constructor
  · simp only [minimize_run, get_constraints]
    rw [if_pos hcond]
  constructor
  · simp only [minimize_run_legacy, get_constraints]
    rw [if_pos hcond]
  · simp only [minimize_run_legacy, get_constraints]
    rw [if_pos hcond]

/-- C2 witness: one design variable, two equality constraints, a driver
that would evaluate the objective — the run stops at the check. -/
theorem C2_overconstrained_witness :
    (minimize_run 1 (some [⟨CType.eq, 0, false⟩, ⟨CType.eq, 1, false⟩]) "sqp"
        (fun _ _ => ([Event.evalObjective], Except.ok ()))).result
        = Except.error MinErr.overconstrained ∧
    (minimize_run 1 (some [⟨CType.eq, 0, false⟩, ⟨CType.eq, 1, false⟩]) "sqp"
        (fun _ _ => ([Event.evalObjective], Except.ok ()))).events = [] ∧
    (minimize_run_legacy 1 (some [⟨CType.eq, 0, false⟩, ⟨CType.eq, 1, false⟩]) "sqp"
        (fun _ _ => ([Event.evalObjective], Except.ok ()))).result
        = Except.error MinErr.overconstrained ∧
    (minimize_run_legacy 1 (some [⟨CType.eq, 0, false⟩, ⟨CType.eq, 1, false⟩]) "sqp"
        (fun _ _ => ([Event.evalObjective], Except.ok ()))).events = [] :=
  C2_overconstrained 1 [⟨CType.eq, 0, false⟩, ⟨CType.eq, 1, false⟩] "sqp"
    (fun _ _ => ([Event.evalObjective], Except.ok ())) (by decide)

/-- C10: the method override to `"bfgs"` happens exactly when the
`constraints` option is `None`; an empty constraint list leaves the
configured method unchanged while yielding zero constraint counts, and the
configured (possibly non-`"bfgs"`) method is then dispatched. -/
theorem C10_method_override (n_vars : Nat) (method : String)
    (driver : String → Option (List Constraint) → List Event × Except MinErr Unit)
    (constraints : Option (List CSpec)) :
    (minimize_run n_vars constraints method driver).methodUsed
        = (if constraints = none then "bfgs" else method) ∧
    get_constraints (some ([] : List CSpec)) = (some [], 0, 0) ∧
    (minimize_run n_vars (some []) "grg" driver).result = (driver "grg" (some [])).2 ∧
    (minimize_run n_vars (some []) "grg" driver).events
        = [Event.printSetup, Event.createOptFile, Event.createGradFile]
            ++ (driver "grg" (some [])).1 ++ [Event.createEvalFile] := by
  refine ⟨?_, rfl, ?_, ?_⟩
  · simp only [minimize_run]
    repeat' split
    all_goals rfl
  · simp [minimize_run, get_constraints]
  · simp [minimize_run, get_constraints]

theorem countTrue_nil : countTrue [] = 0 := rfl

theorem countTrue_cons_true (l : List Bool) :
    countTrue (true :: l) = countTrue l + 1 := by
  simp [countTrue, List.countP_cons]

theorem countTrue_cons_false (l : List Bool) :
    countTrue (false :: l) = countTrue l := by
  simp [countTrue, List.countP_cons]

theorem countTrue_append (xs ys : List Bool) :
    countTrue (xs ++ ys) = countTrue xs + countTrue ys := by
  simp [countTrue, List.countP_append]

theorem countTrue_replicate_true (n : Nat) :
    countTrue (List.replicate n true) = n := by
  induction n with
  | zero => rfl
  | succ n ih => simp [List.replicate_succ, countTrue_cons_true, ih]

/-- The `_grg` excess-drop scan is exactly "flip the first
`excess - unbound` remaining `True` flags". -/
theorem dropExcessAux_eq_dropFirstTrues (l : List Bool) (excess unbound : Nat) :
    dropExcessAux excess l unbound = dropFirstTrues l (excess - unbound) := by
  induction l generalizing unbound with
  | nil => rfl
  | cons b bs ih =>
      cases b with
      | true =>
          by_cases h : unbound < excess
          · have h0 : 0 < excess - unbound := by omega
            have h1 : excess - (unbound + 1) = excess - unbound - 1 := by omega
            simp [dropExcessAux, dropFirstTrues, h, h0, ih, h1]
          · have h0 : excess - unbound = 0 := by omega
            simp [dropExcessAux, dropFirstTrues, h, h0, ih]
      | false => simp [dropExcessAux, dropFirstTrues, ih]

theorem dropFirstTrues_zero (l : List Bool) : dropFirstTrues l 0 = l := by
  induction l with
  | nil => rfl
  | cons b bs ih => cases b <;> simp [dropFirstTrues, ih]

theorem dropFirstTrues_cons_pos (bs : List Bool) (k : Nat) (hk : 0 < k) :
    dropFirstTrues (true :: bs) k = false :: dropFirstTrues bs (k - 1) := by
  simp [dropFirstTrues, hk]

theorem dropFirstTrues_cons_false (bs : List Bool) (k : Nat) :
    dropFirstTrues (false :: bs) k = false :: dropFirstTrues bs k := by
  simp [dropFirstTrues]

theorem dropFirstTrues_length (l : List Bool) (k : Nat) :
    (dropFirstTrues l k).length = l.length := by
  induction l generalizing k with
  | nil => rfl
  | cons b bs ih =>
      cases b with
      | true =>
          by_cases h : 0 < k
          · rw [dropFirstTrues_cons_pos bs k h]
            simp [ih]
          · have hk0 : k = 0 := by omega
            subst hk0
            rw [dropFirstTrues_zero]
      | false =>
          rw [dropFirstTrues_cons_false]
          simp [ih]

theorem countTrue_dropFirstTrues (l : List Bool) (k : Nat) (h : k ≤ countTrue l) :
    countTrue (dropFirstTrues l k) = countTrue l - k := by
  induction l generalizing k with
  | nil =>
      rw [countTrue_nil] at h
      have hk0 : k = 0 := by omega
      subst hk0
      rfl
  | cons b bs ih =>
      cases b with
      | true =>
          rw [countTrue_cons_true] at h
          by_cases hk : 0 < k
          · rw [dropFirstTrues_cons_pos bs k hk, countTrue_cons_false,
              ih (k-1) (by omega), countTrue_cons_true]
            omega
          · have hk0 : k = 0 := by omega
            subst hk0
            rw [dropFirstTrues_zero]
            omega
      | false =>
          rw [countTrue_cons_false] at h
          rw [dropFirstTrues_cons_false, countTrue_cons_false,
            countTrue_cons_false, ih k h]

theorem dropFirstTrues_append (xs ys : List Bool) (k : Nat) (h : k ≤ countTrue xs) :
    dropFirstTrues (xs ++ ys) k = dropFirstTrues xs k ++ ys := by
  induction xs generalizing k with
  | nil =>
      rw [countTrue_nil] at h
      have hk0 : k = 0 := by omega
      subst hk0
      rw [dropFirstTrues_zero]
      rfl
  | cons b bs ih =>
      cases b with
      | true =>
          rw [countTrue_cons_true] at h
          by_cases hk : 0 < k
          · rw [List.cons_append, dropFirstTrues_cons_pos (bs ++ ys) k hk,
              dropFirstTrues_cons_pos bs k hk, ih (k-1) (by omega)]
            rfl
          · have hk0 : k = 0 := by omega
            subst hk0
            rw [dropFirstTrues_zero, dropFirstTrues_zero]
      | false =>
          rw [countTrue_cons_false] at h
          rw [List.cons_append, dropFirstTrues_cons_false (bs ++ ys) k,
            dropFirstTrues_cons_false bs k, ih k h]
          rfl

/-- C4: in a GRG iteration with more binding constraints than design
variables, and with at most `n_vars` equality constraints and the
inequalities-first constraint ordering, the adjustment un-marks exactly the
excess binding constraints, in scan order, all of them inequality
constraints (the equality block at indices `n_ineq ..` stays all-binding),
leaving exactly `n_vars` binding constraints. -/
theorem C4_grg_excess_drop (g0 : List ℚ) (n_vars n_ineq n_eq : Nat) (tol : ℚ)
    (hlen : g0.length = n_ineq + n_eq)
    (heq : n_eq ≤ n_vars)
    (hover : n_vars < countTrue (bindingSet g0 n_ineq (n_ineq + n_eq) tol)) :
    countTrue (grgAdjustBinding n_vars (bindingSet g0 n_ineq (n_ineq + n_eq) tol))
        = n_vars ∧
    grgAdjustBinding n_vars (bindingSet g0 n_ineq (n_ineq + n_eq) tol)
      = dropFirstTrues ((bindingSet g0 n_ineq (n_ineq + n_eq) tol).take n_ineq)
          (countTrue (bindingSet g0 n_ineq (n_ineq + n_eq) tol) - n_vars)
        ++ List.replicate n_eq true ∧
    (grgAdjustBinding n_vars (bindingSet g0 n_ineq (n_ineq + n_eq) tol)).drop n_ineq
      = List.replicate n_eq true := by
  have hrep : (n_ineq + n_eq) - n_ineq = n_eq := by omega
  have hbs : bindingSet g0 n_ineq (n_ineq + n_eq) tol
      = (g0.take n_ineq).map (fun v => decide (v ≤ tol)) ++ List.replicate n_eq true := by
    simp only [bindingSet, hrep]
  have hAlen : ((g0.take n_ineq).map (fun v => decide (v ≤ tol))).length = n_ineq := by
    rw [List.length_map, List.length_take, hlen]
    omega
  have hcount : countTrue (bindingSet g0 n_ineq (n_ineq + n_eq) tol)
      = countTrue ((g0.take n_ineq).map (fun v => decide (v ≤ tol))) + n_eq := by
    rw [hbs, countTrue_append, countTrue_replicate_true]
  have hkA : countTrue (bindingSet g0 n_ineq (n_ineq + n_eq) tol) - n_vars
      ≤ countTrue ((g0.take n_ineq).map (fun v => decide (v ≤ tol))) := by omega
  have htake : (bindingSet g0 n_ineq (n_ineq + n_eq) tol).take n_ineq
      = (g0.take n_ineq).map (fun v => decide (v ≤ tol)) := by
    rw [hbs, List.take_left' hAlen]
  have hadj : grgAdjustBinding n_vars (bindingSet g0 n_ineq (n_ineq + n_eq) tol)
      = dropFirstTrues ((bindingSet g0 n_ineq (n_ineq + n_eq) tol).take n_ineq)
          (countTrue (bindingSet g0 n_ineq (n_ineq + n_eq) tol) - n_vars)
        ++ List.replicate n_eq true := by
    simp only [grgAdjustBinding]
    rw [if_pos hover, dropExcessAux_eq_dropFirstTrues, Nat.sub_zero, htake]
    rw [hbs]
    refine dropFirstTrues_append _ _ _ ?_
    rw [countTrue_append, countTrue_replicate_true]
    omega
  refine ⟨?_, hadj, ?_⟩
  · rw [hadj, countTrue_append, countTrue_replicate_true, htake,
      countTrue_dropFirstTrues _ _ hkA]
    omega
  · rw [hadj, htake]
    have hdl : (dropFirstTrues ((g0.take n_ineq).map (fun v => decide (v ≤ tol)))
        (countTrue (bindingSet g0 n_ineq (n_ineq + n_eq) tol) - n_vars)).length = n_ineq := by
      rw [dropFirstTrues_length, hAlen]
    rw [List.drop_left' hdl]

/-- C4 witness: two design variables, three inequality and two equality
constraints, all binding; the scan drops the first three (all
inequalities), keeping both equalities. -/
theorem C4_grg_excess_drop_witness :
    countTrue (grgAdjustBinding 2 (bindingSet [0, 0, 0, 0, 0] 3 (3 + 2) (1/10000))) = 2 ∧
    grgAdjustBinding 2 (bindingSet [0, 0, 0, 0, 0] 3 (3 + 2) (1/10000))
      = dropFirstTrues ((bindingSet [0, 0, 0, 0, 0] 3 (3 + 2) (1/10000)).take 3)
          (countTrue (bindingSet [0, 0, 0, 0, 0] 3 (3 + 2) (1/10000)) - 2)
        ++ List.replicate 2 true ∧
    (grgAdjustBinding 2 (bindingSet [0, 0, 0, 0, 0] 3 (3 + 2) (1/10000))).drop 3
      = List.replicate 2 true :=
  C4_grg_excess_drop [0, 0, 0, 0, 0] 2 3 2 (1/10000) (by decide) (by decide) (by decide)

/-- The source's bracket expression (`a3*2`, clamp written
`alpha_opt > a3 or alpha_opt < a1`) equals the claim's formula
(`2·a3`, quotient outside `[a1, a3]`). -/
theorem bracket_source_eq_claim (a1 a2 a3 f1 f2 f3 : ℚ) :
    (if (f1*(a2^2 - a3*2) + f2*(a3^2 - a1^2) + f3*(a1^2 - a2^2)) /
          (2*(f1*(a2 - a3) + f2*(a3 - a1) + f3*(a1 - a3))) > a3 ∨
        (f1*(a2^2 - a3*2) + f2*(a3^2 - a1^2) + f3*(a1^2 - a2^2)) /
          (2*(f1*(a2 - a3) + f2*(a3 - a1) + f3*(a1 - a3))) < a1 then a2
      else (f1*(a2^2 - a3*2) + f2*(a3^2 - a1^2) + f3*(a1^2 - a2^2)) /
          (2*(f1*(a2 - a3) + f2*(a3 - a1) + f3*(a1 - a3))))
      = claimBracketStep a1 a2 a3 f1 f2 f3 := by
  have hm : a3*2 = 2*a3 := mul_comm a3 2
  simp only [claimBracketStep, claimBracketVertex, hm]
  exact if_congr or_comm rfl rfl

/-- C5: on the bracket fallback path — `search_type = "bracket"`, or a
quadratic fit rejected for a missing or negative vertex, non-convexity, or
R² below `rsq_tol` — the returned step is exactly the claim's quotient
(first term `f1·(a2² − 2·a3)`, reproducing the source's literal `a3*2`)
clamped to `a2` outside `[a1, a3]`; and the canonical and legacy
generations compute identical values on equal inputs. -/
theorem C5_bracket_fallback (st : Settings) (qVertex : Option ℚ) (qConvex : Bool)
    (qRsq : ℚ) (a f_search : List ℚ) (min_ind : Nat)
    (h : st.search_type = "bracket" ∨
      (qVertex = none ∨ qVertex.getD 0 < 0 ∨ qConvex = false ∨ qRsq < st.rsq_tol)) :
    Canonical.find_opt_alpha st qVertex qConvex qRsq a f_search min_ind
      = claimBracketStep (a.getD (min_ind - 1) 0) (a.getD min_ind 0)
          (a.getD (min_ind + 1) 0) (f_search.getD (min_ind - 1) 0)
          (f_search.getD min_ind 0) (f_search.getD (min_ind + 1) 0) ∧
    Canonical.find_opt_alpha st qVertex qConvex qRsq a f_search min_ind
      = Legacy.find_opt_alpha st qVertex qConvex qRsq a f_search min_ind := by
  refine ⟨?_, rfl⟩
  have hcond : ¬(st.search_type = "quadratic" ∧
      ¬(qVertex = none ∨ qVertex.getD 0 < 0 ∨ qConvex = false ∨ qRsq < st.rsq_tol)) := by
    rcases h with h | h
    · intro hc
      rw [h] at hc
      exact absurd hc.1 (by decide)
    · intro hc
      exact hc.2 h
  simp only [Canonical.find_opt_alpha, if_neg hcond]
  exact bracket_source_eq_claim _ _ _ _ _ _

/-- C5 witness: a concrete bracket evaluation whose vertex quotient (8/7)
falls outside the bracket `[1/8, 3/8]` and is clamped to `a2 = 1/4`. -/
theorem C5_bracket_fallback_witness :
    Canonical.find_opt_alpha defaultSettings none false 0
        [0, 1/8, 1/4, 3/8] [5, 3, 2, 4] 2
      = claimBracketStep ((1:ℚ)/8) (1/4) (3/8) 3 2 4 ∧
    Canonical.find_opt_alpha defaultSettings none false 0
        [0, 1/8, 1/4, 3/8] [5, 3, 2, 4] 2
      = Legacy.find_opt_alpha defaultSettings none false 0
          [0, 1/8, 1/4, 3/8] [5, 3, 2, 4] 2 ∧
    Canonical.find_opt_alpha defaultSettings none false 0
        [0, 1/8, 1/4, 3/8] [5, 3, 2, 4] 2 = 1/4 := by
  have h := C5_bracket_fallback defaultSettings none false 0
    [0, 1/8, 1/4, 3/8] [5, 3, 2, 4] 2 (Or.inl rfl)
  refine ⟨?_, h.2, ?_⟩
  · exact h.1.trans (by decide)
  · exact h.1.trans (by decide)

theorem comboSkip_eq_false_iff (inp : SQPInput) (c : List Bool) :
    comboSkip inp c = false ↔ specValidCombo inp c := by
  simp only [comboSkip, specValidCombo, Bool.or_eq_false_iff, Bool.and_eq_false_iff,
    decide_eq_false_iff_not, not_lt]
  constructor
  · rintro ⟨h1, h2⟩
    refine ⟨h1, fun hgt => ?_⟩
    rcases h2 with h2 | h2
    · omega
    · exact h2
  · rintro ⟨h1, h2⟩
    refine ⟨h1, ?_⟩
    by_cases hgt : 1 < countTrue c
    · exact Or.inr (h2 hgt)
    · exact Or.inl (by omega)

theorem nonbindingViolated_eq_false_iff (bs : List Bool) (vs : List ℚ) :
    nonbindingViolated bs vs = false ↔
      ∀ i < bs.length, bs.get? i = some false → nonnegAt (vs.get? i) := by
  induction bs generalizing vs with
  | nil => simp [nonbindingViolated]
  | cons b bs ih =>
      cases vs with
      | nil =>
          cases b <;>
            simp [nonbindingViolated, nonnegAt]
      | cons v vs =>
          cases b with
          | true =>
              rw [show nonbindingViolated (true :: bs) (v :: vs)
                  = nonbindingViolated bs vs from rfl, ih vs]
              constructor
              · intro h i hi hb
                cases i with
                | zero => simp at hb
                | succ j =>
                    exact h j (by simpa using hi) (by simpa using hb)
              · intro h i hi hb
                exact h (i+1) (by simpa using hi) (by simpa using hb)
          | false =>
              rw [show nonbindingViolated (false :: bs) (v :: vs)
                  = (decide (v < 0) || nonbindingViolated bs vs) from rfl]
              rw [Bool.or_eq_false_iff, decide_eq_false_iff_not, not_lt, ih vs]
              constructor
              · rintro ⟨h0, h⟩ i hi hb
                cases i with
                | zero => simpa [nonnegAt] using h0
                | succ j =>
                    exact h j (by simpa using hi) (by simpa using hb)
              · intro h
                refine ⟨?_, fun i hi hb => h (i+1) (by simpa using hi) (by simpa using hb)⟩
                have := h 0 (by simp) (by simp)
                simpa [nonnegAt] using this

theorem negIneqMult_eq_false_iff (n : Nat) (l : List ℚ) :
    negIneqMult n l = false ↔ ∀ i < n, nonnegAt (l.get? i) := by
  induction l generalizing n with
  | nil =>
      simp [negIneqMult, nonnegAt]
  | cons v vs ih =>
      cases n with
      | zero => simp [negIneqMult]
      | succ m =>
          rw [show negIneqMult (m+1) (v :: vs)
              = (decide (v < 0) || negIneqMult m vs) from rfl]
          rw [Bool.or_eq_false_iff, decide_eq_false_iff_not, not_lt, ih m]
          constructor
          · rintro ⟨h0, h⟩ i hi
            cases i with
            | zero => simpa [nonnegAt] using h0
            | succ j => exact h j (by omega)
          · intro h
            refine ⟨?_, fun i hi => h (i+1) (by omega)⟩
            have := h 0 (by omega)
            simpa [nonnegAt] using this

theorem acceptStrict_decide_eq (inp : SQPInput) (c : List Bool) :
    decide (specAcceptStrict inp c)
      = (!comboSkip inp c && !nonbindingViolated c (comboG1 inp c)
          && !negIneqMult inp.n_ineq_cstr (get_x_lambda inp c).2) := by
  have hiff : specAcceptStrict inp c ↔
      (!comboSkip inp c && !nonbindingViolated c (comboG1 inp c)
        && !negIneqMult inp.n_ineq_cstr (get_x_lambda inp c).2) = true := by
    simp only [specAcceptStrict, specCondA, specCondB,
      ← comboSkip_eq_false_iff inp c,
      ← nonbindingViolated_eq_false_iff c (comboG1 inp c),
      ← negIneqMult_eq_false_iff inp.n_ineq_cstr (get_x_lambda inp c).2]
    simp [Bool.and_eq_true, Bool.not_eq_true', and_assoc]
  rw [Bool.eq_iff_iff, decide_eq_true_eq]
  exact hiff

theorem acceptRelaxed_decide_eq (inp : SQPInput) (c : List Bool) :
    decide (specAcceptRelaxed inp c)
      = (!comboSkip inp c && !negIneqMult inp.n_ineq_cstr (get_x_lambda inp c).2) := by
  have hiff : specAcceptRelaxed inp c ↔
      (!comboSkip inp c && !negIneqMult inp.n_ineq_cstr (get_x_lambda inp c).2) = true := by
    simp only [specAcceptRelaxed, specCondB,
      ← comboSkip_eq_false_iff inp c,
      ← negIneqMult_eq_false_iff inp.n_ineq_cstr (get_x_lambda inp c).2]
    simp [Bool.and_eq_true, Bool.not_eq_true']
  rw [Bool.eq_iff_iff, decide_eq_true_eq]
  exact hiff

theorem getDeltaXLoop1_eq_find (inp : SQPInput) (L : List (List Bool)) :
    getDeltaXLoop1 inp L
      = L.find? (fun c => !comboSkip inp c && !nonbindingViolated c (comboG1 inp c)
          && !negIneqMult inp.n_ineq_cstr (get_x_lambda inp c).2) := by
  induction L with
  | nil => rfl
  | cons c rest ih =>
      rcases Bool.eq_false_or_eq_true (comboSkip inp c) with h1 | h1 <;>
        rcases Bool.eq_false_or_eq_true (nonbindingViolated c (comboG1 inp c)) with h2 | h2 <;>
          rcases Bool.eq_false_or_eq_true
            (negIneqMult inp.n_ineq_cstr (get_x_lambda inp c).2) with h3 | h3 <;>
        simp [getDeltaXLoop1, List.find?_cons, h1, h2, h3, ih]

theorem getDeltaXLoop2_eq_find (inp : SQPInput) (L : List (List Bool)) :
    getDeltaXLoop2 inp L
      = L.find? (fun c => !comboSkip inp c
          && !negIneqMult inp.n_ineq_cstr (get_x_lambda inp c).2) := by
  induction L with
  | nil => rfl
  | cons c rest ih =>
      rcases Bool.eq_false_or_eq_true (comboSkip inp c) with h1 | h1 <;>
        rcases Bool.eq_false_or_eq_true
          (negIneqMult inp.n_ineq_cstr (get_x_lambda inp c).2) with h3 | h3 <;>
        simp [getDeltaXLoop2, List.find?_cons, h1, h3, ih]

theorem scatterLambda_nonbinding (bs : List Bool) (vs : List ℚ) (i : Nat)
    (hb : bs.get? i = some false) :
    (scatterLambda bs vs).get? i = some 0 := by
  induction bs generalizing vs i with
  | nil => simp at hb
  | cons b bs ih =>
      cases b with
      | true =>
          cases i with
          | zero => simp at hb
          | succ j =>
              cases vs with
              | nil =>
                  rw [show scatterLambda (true :: bs) [] = 0 :: scatterLambda bs [] from rfl]
                  exact ih [] j (by simpa using hb)
              | cons v vs =>
                  rw [show scatterLambda (true :: bs) (v :: vs)
                      = v :: scatterLambda bs vs from rfl]
                  exact ih vs j (by simpa using hb)
      | false =>
          cases i with
          | zero => rfl
          | succ j =>
              rw [show scatterLambda (false :: bs) vs
                  = 0 :: scatterLambda bs vs from rfl]
              exact ih vs j (by simpa using hb)

/-- C3: the binding set `_get_delta_x` settles on is exactly the claim's
choice — the first combination in `itertools.product` enumeration order
(equality constraints always binding) that is not skipped (too many binding
constraints, or more than one binding constraint with the smallest singular
value of the binding-gradient Jacobian below 1e-14) and satisfies (a) no
non-binding constraint violated at the candidate point and (b) no negative
inequality multiplier; when no combination satisfies (a), the first
combination satisfying only (b).  Moreover `_get_x_lambda` gives every
non-binding constraint the multiplier zero.  The SVD test and the KKT
solve enter as the shared oracles of `SQPInput`. -/
theorem C3_active_set_choice (inp : SQPInput) :
    get_delta_x_combo inp = specChoose inp ∧
    ∀ c : List Bool, ∀ i : Nat, c.get? i = some false →
      (get_x_lambda inp c).2.get? i = some 0 := by
  constructor
  · rw [get_delta_x_combo, specChoose, getDeltaXLoop1_eq_find, getDeltaXLoop2_eq_find]
    have e1 : (fun c => decide (specAcceptStrict inp c))
        = (fun c => !comboSkip inp c && !nonbindingViolated c (comboG1 inp c)
            && !negIneqMult inp.n_ineq_cstr (get_x_lambda inp c).2) :=
      funext fun c => acceptStrict_decide_eq inp c
    have e2 : (fun c => decide (specAcceptRelaxed inp c))
        = (fun c => !comboSkip inp c
            && !negIneqMult inp.n_ineq_cstr (get_x_lambda inp c).2) :=
      funext fun c => acceptRelaxed_decide_eq inp c
    rw [e1, e2]
  · intro c i hb
    exact scatterLambda_nonbinding c (inp.kktSol c).2 i hb

/-- C3 witness: two inequality constraints plus one equality constraint in
two variables, with concrete oracles: the all-binding combination is
skipped by the dependence test, `[true, false, true]` is rejected by a
negative multiplier, and `[false, true, true]` is accepted; its non-binding
constraint 0 receives multiplier zero. -/
theorem C3_active_set_choice_witness :
    get_delta_x_combo
        ⟨2, 3, 2, fun c => decide (c = [true, true, true]),
          fun c => if c = [true, false, true] then ([1, 0], [-1, 1])
            else ([1, 1], [2, 1]),
          fun _ => [1, 1, 0], [0, 0]⟩
      = specChoose
        ⟨2, 3, 2, fun c => decide (c = [true, true, true]),
          fun c => if c = [true, false, true] then ([1, 0], [-1, 1])
            else ([1, 1], [2, 1]),
          fun _ => [1, 1, 0], [0, 0]⟩ ∧
    get_delta_x_combo
        ⟨2, 3, 2, fun c => decide (c = [true, true, true]),
          fun c => if c = [true, false, true] then ([1, 0], [-1, 1])
            else ([1, 1], [2, 1]),
          fun _ => [1, 1, 0], [0, 0]⟩
      = some [false, true, true] ∧
    (get_x_lambda
        ⟨2, 3, 2, fun c => decide (c = [true, true, true]),
          fun c => if c = [true, false, true] then ([1, 0], [-1, 1])
            else ([1, 1], [2, 1]),
          fun _ => [1, 1, 0], [0, 0]⟩ [false, true, true]).2.get? 0 = some 0 := by
  refine ⟨(C3_active_set_choice _).1, by decide, ?_⟩
  exact (C3_active_set_choice _).2 [false, true, true] 0 (by decide)

/-- C6 (code bug): a reachable run on which the step-tolerance stopping
rule fires yet the driver raises instead of returning a result record.
Minimizing `f(x) = max(x, -2x)` from `x = 0` (defaults throughout), the
first line search shrinks `alpha` below `termination_tol` and returns with
the start point, the inner loop is never entered, and the final
`return OptimizerResult(f2, x2, ...)` of `_bfgs` references the
never-assigned `f2`/`x2` — a `NameError`, not the claimed
success-with-message return. -/
theorem C6_bfgs_name_error :
    bfgs (fun x => some (max x (-2*x))) (fun _ _ => (none, false, 0))
        defaultSettings 20 2 3 0
      = BfgsOut.err PyErr.nameErrFX2 := by
  decide

/-- C7 (code bug): the restoration-failure test of `_grg_line_search` is
`len(x_search) == 1` on the *transposed* sample array, whose length is the
number of design variables.  First conjunct: with two design variables,
zero surviving candidates on every attempt, and the step size decayed
below `termination_tol`, the search returns `code = 1` — `_grg` then
proceeds and terminates with `success = True` ("Step termination tolerance
reached"), where the claim requires the `success = False`
"Failed to converge to one or more constraint boundaries." record.  Second
conjunct: with one design variable the search returns `code = -1` (the
failure record) even though surviving candidates were found on every
attempt. -/
theorem C7_grg_failure_test :
    grg_line_search_run (fun _ _ => none)
        ⟨1/10^12, 1/10^12, 8, 1/8, false, 7, "bracket", 4/5, 1/10000, 9/10, 1,
          1/10000, 1/1000, none, 1, 1⟩
        [0, 0] 0 [0] 20 1
      = ⟨[0, 0], 0, [0], 1⟩ ∧
    grg_line_search_run (fun _ _ => some ([1], 1, [0]))
        ⟨1/10^12, 1/10^12, 8, 1/8, false, 7, "bracket", 4/5, 1/10000, 9/10, 1,
          1/10000, 1/1000, none, 1, 1⟩
        [0] 0 [0] 20 1
      = ⟨[0], 0, [0], -1⟩ := by
  constructor
  · decide
  · decide

/-- C8 (code bug): on a plateau the line search does return the starting
point and value — but as the 3-tuple of line 425, which the caller unpacks
into four names, raising `ValueError`; the driver never proceeds with the
unchanged point.  Concretely: minimizing `f(x) = max(0, -x)` from `x = 0`
(defaults), the first line-search attempt samples nine equal values and
the run dies in the caller's unpacking. -/
theorem C8_plateau_unpack_error :
    bfgs (fun x => some (max 0 (-x))) (fun _ _ => (none, false, 0))
        defaultSettings 3 2 2 0
      = BfgsOut.err PyErr.unpackValueErr := by
  decide

theorem nanOffending_ne_nil (xs : List ℚ) (fs : List (Option ℚ))
    (hlen : xs.length = fs.length)
    (h : fs.any (fun v => v.isNone) = true) : nanOffending xs fs ≠ [] := by
  induction xs generalizing fs with
  | nil =>
      cases fs with
      | nil => simp at h
      | cons f fs => simp at hlen
  | cons x xs ih =>
      cases fs with
      | nil => simp at hlen
      | cons f fs =>
          cases f with
          | none =>
              have heq : nanOffending (x :: xs) (none :: fs)
                  = x :: (List.zip xs fs).filterMap
                    (fun p => if p.2.isNone then some p.1 else none) := by
                simp [nanOffending, List.zip_cons_cons, List.filterMap_cons]
              rw [heq]
              simp
          | some v =>
              have h2 : fs.any (fun w => w.isNone) = true := by
                rcases List.any_eq_true.mp h with ⟨w, hw, hwn⟩
                rcases List.mem_cons.mp hw with rfl | hw2
                · simp at hwn
                · exact List.any_eq_true.mpr ⟨w, hw2, hwn⟩
              have heq : nanOffending (x :: xs) (some v :: fs) = nanOffending xs fs := by
                simp [nanOffending, List.zip_cons_cons, List.filterMap_cons]
              rw [heq]
              exact ih fs (by simpa using hlen) h2

/-- One NaN-guarded step of `line_search`: when the batch contains a
not-a-number value, the attempt stops at the diagnostic/raise of lines
417-419, the outcome branching on the offending index set, and the
evaluation trace is exactly this attempt's samples. -/
theorem line_search_nan_step (fobj : ℚ → Option ℚ)
    (qfit : List ℚ → List ℚ → Option ℚ × Bool × ℚ) (st : Settings)
    (fuel : Nat) (x0 : ℚ) (f0 : Option ℚ) (s del_f0 alpha : ℚ) (pr pi : Bool)
    (h : (f0 :: (lsSamples st x0 s alpha).map fobj).any (fun v => v.isNone) = true) :
    line_search fobj qfit st (fuel+1) x0 f0 s del_f0 alpha pr pi
      = (match nanOffending (x0 :: lsSamples st x0 s alpha)
            (f0 :: (lsSamples st x0 s alpha).map fobj) with
          | [x] => (Except.error (PyErr.nanInLineSearch x), lsSamples st x0 s alpha)
          | _ => (Except.error PyErr.nanIndexTypeError, lsSamples st x0 s alpha)) := by
  simp only [line_search, h, if_true]

/-- C9 (counterexample): with two NaN samples in one attempt — an objective
that is NaN at `1/8` and `1/4`, sampled at `1/8 .. 1` — the run dies in
the diagnostic print's list-indexing `TypeError`, not in the claimed
numerical-invalidity `ValueError`, and no offending point is reported. -/
theorem C9_counterexample :
    line_search (fun x => if x = 1/8 ∨ x = 1/4 then none else some 0)
        (fun _ _ => (none, false, 0)) defaultSettings 6 0 (some 0) 1 (-1/2)
        (1/8) false false
      = (Except.error PyErr.nanIndexTypeError,
          [1/8, 2/8, 3/8, 4/8, 5/8, 6/8, 7/8, 1]) := by
  decide

/-- C9 (amended): if any sampled objective value of a line-search attempt
is not-a-number, the run fails immediately and the evaluation trace of the
whole remaining search is exactly this attempt's batch — no further
objective evaluations occur, regardless of remaining fuel.  When exactly
one sample is not-a-number, the failure is the numerical-invalidity error
(`Objective function returned a NaN`) reporting the offending design
point; when two or more are, the diagnostic print's list-indexing raises
`TypeError` first, so the run dies at the same spot but without the
numerical-invalidity error or the point report. -/
theorem C9_nan_fail_fast (fobj : ℚ → Option ℚ)
    (qfit : List ℚ → List ℚ → Option ℚ × Bool × ℚ) (st : Settings)
    (fuel : Nat) (x0 : ℚ) (f0 : Option ℚ) (s del_f0 alpha : ℚ) (pr pi : Bool)
    (h : (f0 :: (lsSamples st x0 s alpha).map fobj).any (fun v => v.isNone) = true) :
    (line_search fobj qfit st (fuel+1) x0 f0 s del_f0 alpha pr pi).2
      = lsSamples st x0 s alpha ∧
    ((∃ x, nanOffending (x0 :: lsSamples st x0 s alpha)
          (f0 :: (lsSamples st x0 s alpha).map fobj) = [x] ∧
        (line_search fobj qfit st (fuel+1) x0 f0 s del_f0 alpha pr pi).1
          = Except.error (PyErr.nanInLineSearch x)) ∨
      (2 ≤ (nanOffending (x0 :: lsSamples st x0 s alpha)
          (f0 :: (lsSamples st x0 s alpha).map fobj)).length ∧
        (line_search fobj qfit st (fuel+1) x0 f0 s del_f0 alpha pr pi).1
          = Except.error PyErr.nanIndexTypeError)) := by
  have hstep := line_search_nan_step fobj qfit st fuel x0 f0 s del_f0 alpha pr pi h
  have hne : nanOffending (x0 :: lsSamples st x0 s alpha)
      (f0 :: (lsSamples st x0 s alpha).map fobj) ≠ [] :=
    nanOffending_ne_nil _ _ (by simp) h
  rcases hoff : nanOffending (x0 :: lsSamples st x0 s alpha)
      (f0 :: (lsSamples st x0 s alpha).map fobj) with _ | ⟨x, rest⟩
  · exact absurd hoff hne
  · cases rest with
    | nil =>
        rw [hoff] at hstep
        rw [hstep]
        exact ⟨rfl, Or.inl ⟨x, rfl, rfl⟩⟩
    | cons y rest2 =>
        rw [hoff] at hstep
        rw [hstep]
        refine ⟨rfl, Or.inr ⟨?_, rfl⟩⟩
        simp only [List.length_cons]
        omega

/-- C9 witness: an objective that is NaN only at the first sample point
`1/8`; the trace is the eight samples of the single attempt, the
single-NaN branch of the amended claim applies, and the concrete outcome
is the numerical-invalidity error reporting exactly that point. -/
theorem C9_nan_fail_fast_witness :
    (line_search (fun x => if x = 1/8 then none else some 0)
        (fun _ _ => (none, false, 0)) defaultSettings 6 0 (some 0) 1 (-1/2)
        (1/8) false false).2 = lsSamples defaultSettings 0 1 (1/8) ∧
    ((∃ x, nanOffending (0 :: lsSamples defaultSettings 0 1 (1/8))
          (some 0 :: (lsSamples defaultSettings 0 1 (1/8)).map
            (fun x => if x = 1/8 then none else some 0)) = [x] ∧
        (line_search (fun x => if x = 1/8 then none else some 0)
            (fun _ _ => (none, false, 0)) defaultSettings 6 0 (some 0) 1 (-1/2)
            (1/8) false false).1 = Except.error (PyErr.nanInLineSearch x)) ∨
      (2 ≤ (nanOffending (0 :: lsSamples defaultSettings 0 1 (1/8))
          (some 0 :: (lsSamples defaultSettings 0 1 (1/8)).map
            (fun x => if x = 1/8 then none else some 0))).length ∧
        (line_search (fun x => if x = 1/8 then none else some 0)
            (fun _ _ => (none, false, 0)) defaultSettings 6 0 (some 0) 1 (-1/2)
            (1/8) false false).1 = Except.error PyErr.nanIndexTypeError)) ∧
    line_search (fun x => if x = 1/8 then none else some 0)
        (fun _ _ => (none, false, 0)) defaultSettings 6 0 (some 0) 1 (-1/2)
        (1/8) false false
      = (Except.error (PyErr.nanInLineSearch (1/8)),
          [1/8, 2/8, 3/8, 4/8, 5/8, 6/8, 7/8, 1]) := by
  have h := C9_nan_fail_fast (fun x => if x = 1/8 then none else some 0)
    (fun _ _ => (none, false, 0)) defaultSettings 5 0 (some 0) 1 (-1/2)
    (1/8) false false (by decide)
  exact ⟨h.1, h.2, by decide⟩

/-- C10 witness: a concrete dispatch with an empty constraint list and
method `"grg"`. -/
theorem C10_method_override_witness :
    (minimize_run 2 (some []) "grg"
        (fun m _ => ([Event.evalObjective], if m = "grg" then Except.ok () else Except.error MinErr.methodImproper))).methodUsed
        = (if (some ([] : List CSpec)) = none then "bfgs" else "grg") ∧
    get_constraints (some ([] : List CSpec)) = (some [], 0, 0) ∧
    (minimize_run 2 (some []) "grg"
        (fun m _ => ([Event.evalObjective], if m = "grg" then Except.ok () else Except.error MinErr.methodImproper))).result
        = ((fun (m : String) (_ : Option (List Constraint)) =>
            ([Event.evalObjective], if m = "grg" then Except.ok () else Except.error MinErr.methodImproper)) "grg" (some [])).2 ∧
    (minimize_run 2 (some []) "grg"
        (fun m _ => ([Event.evalObjective], if m = "grg" then Except.ok () else Except.error MinErr.methodImproper))).events
        = [Event.printSetup, Event.createOptFile, Event.createGradFile]
            ++ ((fun (m : String) (_ : Option (List Constraint)) =>
                ([Event.evalObjective], if m = "grg" then Except.ok () else Except.error MinErr.methodImproper)) "grg" (some [])).1
            ++ [Event.createEvalFile] :=
  C10_method_override 2 "grg"
    (fun m _ => ([Event.evalObjective], if m = "grg" then Except.ok () else Except.error MinErr.methodImproper))
    (some [])

end Optix
